import Mathlib

/-! Verification of the parallel documentation crawler.

Shallow embedding of src/crawler.ts (class ParallelCrawler) together with the
data model from src/interfaces.ts. Platform and library primitives used by the
crawler (the WHATWG URL builtin, node path.extname, the bloom-filters package,
the JS string split and startsWith) are external to the repository and are
modelled as explicit Lean functions; each such model is marked in its doc
comment. The crawler runs on the single-threaded JS event loop, so the
synchronous prefix of processUrl (normalize, stop check, visited check, budget
check, markVisited, counter increment; crawler.ts lines 124-151) executes
atomically, as does the post-fetch block (lines 160-181); the step relation
below has exactly these engine steps, plus early-return task discard, the
budget-exhaustion stop, and the run-time timer stop. -/

/-- PageData from src/interfaces.ts: one crawled page. The optional title is
absent (none) exactly when the source object carries no title field. -/
structure PageData where
  url : String
  content : String
  links : List String
  title : Option String := none
deriving DecidableEq

/-- CrawlerConfig from src/interfaces.ts, restricted to the fields read by
ParallelCrawler (outputDir and splitPages feed the downstream converter only).
Optional fields are none when the caller omits them. -/
structure CrawlerConfig where
  maxConcurrency : Nat
  sameDomain : Bool
  maxUrlsPerDomain : Option Nat := none
  requestTimeout : Option Nat := none
  maxRunTime : Option Nat := none
  allowedPrefixes : Option (List String) := none
  ignorePrefixes : Option (List String) := none

/-- Constructor defaulting at crawler.ts:26,
this.maxUrlsPerDomain = config.maxUrlsPerDomain ?? 200. -/
def effectiveMaxUrls (cfg : CrawlerConfig) : Nat :=
  cfg.maxUrlsPerDomain.getD 200

/-- Model of the JS expression s.split(sep)[0] for a one-character separator,
as used at crawler.ts:124: the prefix of s before the first occurrence of sep
(the whole string when sep does not occur). -/
def splitHead (s : String) (sep : Char) : String :=
  String.mk (s.data.takeWhile (fun c => c != sep))

/-- URL normalization performed at the top of processUrl (crawler.ts:124):
url.split(charQuestion)[0].split(charHash)[0], removing the query string and
the fragment. -/
def stripQF (url : String) : String :=
  splitHead (splitHead url '?') '#'

/-- Model of the WHATWG URL object produced by the platform builtin new URL,
external to the repository. Field conventions follow the JS URL class:
protocol includes the trailing colon; search is empty or starts with the
question mark; hash is empty or starts with the number sign. -/
structure URLModel where
  protocol : String
  hostname : String
  port : String := ""
  pathname : String
  search : String
  hash : String
deriving DecidableEq

/-- Scheme well-formedness for the URL model: a letter followed by letters,
digits, plus, minus or dot. -/
def schemeChars (cs : List Char) : Bool :=
  match cs with
  | [] => false
  | c :: rest => c.isAlpha && rest.all (fun d => d.isAlphanum || d == '+' || d == '-' || d == '.')

/-- Model of the platform builtin new URL(s) for absolute URLs of the shape
scheme:[//host[:port]][path][?query][#fragment]. Returns none when s has no
well-formed scheme, modelling the TypeError thrown by the builtin. The model
omits host lower-casing and special-scheme path normalization, which none of
the verified filter rules depend on. -/
def parseURL (s : String) : Option URLModel :=
  let cs := s.data
  let scheme := cs.takeWhile (fun c => c != ':')
  if scheme.length = cs.length then none
  else if !(schemeChars scheme) then none
  else
    let rest := cs.drop (scheme.length + 1)
    let hostEnd := fun (c : Char) => c != '/' && c != '?' && c != '#'
    let authority := if rest.take 2 = ['/', '/'] then (rest.drop 2).takeWhile hostEnd else []
    let rest2 := if rest.take 2 = ['/', '/'] then (rest.drop 2).dropWhile hostEnd else rest
    let host := authority.takeWhile (fun c => c != ':')
    let portPart := authority.drop (host.length + 1)
    let path := rest2.takeWhile (fun c => c != '?' && c != '#')
    let rest3 := rest2.dropWhile (fun c => c != '?' && c != '#')
    let query := if rest3.take 1 = ['?'] then (rest3.drop 1).takeWhile (fun c => c != '#') else []
    let frag := (rest3.dropWhile (fun c => c != '#')).drop 1
    some
      { protocol := String.mk (scheme ++ [':'])
        hostname := String.mk host
        port := String.mk portPart
        pathname := String.mk path
        search := if query = [] then "" else String.mk ('?' :: query)
        hash := if frag = [] then "" else String.mk ('#' :: frag) }

/-- Serialization of the URL model, modelling URL#toString of the builtin. -/
def URLModel.toString (u : URLModel) : String :=
  u.protocol
    ++ (if u.hostname = "" then "" else
          "//" ++ u.hostname ++ (if u.port = "" then "" else ":" ++ u.port))
    ++ u.pathname ++ u.search ++ u.hash

/-- The assignment url.hash = "" performed inside the filter callback at
crawler.ts:205. -/
def stripHash (u : URLModel) : URLModel :=
  { u with hash := "" }

/-- Character-level model of String startsWith, as used by the JS calls
protocol.startsWith and fullUrl.startsWith in filterLinks. -/
def strStarts (s p : String) : Bool :=
  p.data.isPrefixOf s.data

/-- Model of node path.extname, external to the repository: the extension of
the final path segment, empty when the segment has no dot or only a leading
dot. -/
def extname (p : String) : String :=
  let base := (p.data.reverse.takeWhile (fun c => c != '/')).reverse
  let afterDot := base.reverse.takeWhile (fun c => c != '.')
  if afterDot.length = base.length then ""
  else if afterDot.length + 1 = base.length then ""
  else String.mk ('.' :: afterDot.reverse)

/-- Character-level model of toLowerCase as applied to the extension at
crawler.ts:215. -/
def lowerStr (s : String) : String :=
  String.mk (s.data.map Char.toLower)

/-- The fixed extension deny-list of crawler.ts:216. -/
def bannedExtensions : List String :=
  [".jpg", ".jpeg", ".png", ".gif", ".pdf", ".zip", ".css", ".js"]

/-- The allow-list guard of crawler.ts:226-234: true when no allow-list is
configured (or it is empty), otherwise true iff the full URL starts with some
listed value. -/
def allowedOk (cfg : CrawlerConfig) (fullUrl : String) : Bool :=
  match cfg.allowedPrefixes with
  | none => true
  | some ps => if ps.length > 0 then ps.any (fun p => strStarts fullUrl p) else true

/-- The deny-list guard of crawler.ts:237-245: true exactly when a non-empty
deny-list is configured and the full URL starts with some listed value. -/
def ignoredHit (cfg : CrawlerConfig) (fullUrl : String) : Bool :=
  match cfg.ignorePrefixes with
  | none => false
  | some ps => if ps.length > 0 then ps.any (fun p => strStarts fullUrl p) else false

/-- The body of the filter callback of ParallelCrawler.filterLinks
(crawler.ts:193-250), applied to the already parsed URL object. Rule order
follows the source: protocol check, hash stripping, same-domain check,
extension deny-list, query-length heuristic, allow-list, deny-list. -/
def linkAdmitURL (cfg : CrawlerConfig) (baseDomain : String) (u0 : URLModel) : Bool :=
  if strStarts u0.protocol "http" = false then false
  else
    let u := stripHash u0
    if cfg.sameDomain = true ∧ u.hostname ≠ baseDomain then false
    else if lowerStr (extname u.pathname) ∈ bannedExtensions then false
    else if u.search ≠ "" ∧ u.search.length > 20 then false
    else if allowedOk cfg (URLModel.toString u) = false then false
    else if ignoredHit cfg (URLModel.toString u) = true then false
    else true

/-- The filter callback of ParallelCrawler.filterLinks including URL parsing:
new URL(link) throwing (parse failure) yields false via the catch at
crawler.ts:248-250. -/
def linkAdmit (cfg : CrawlerConfig) (baseDomain : String) (link : String) : Bool :=
  match parseURL link with
  | none => false
  | some u0 => linkAdmitURL cfg baseDomain u0

/-- ParallelCrawler.filterLinks (crawler.ts:192-252). The currentUrl parameter
is declared by the source but unused by the callback body. -/
def filterLinks (cfg : CrawlerConfig) (links : List String) (currentUrl : String)
    (baseDomain : String) : List String :=
  links.filter (linkAdmit cfg baseDomain)

/-- Outcome of the underlying HTTP fetch primitive, external to the
repository: a network error, an abort on timeout, or the catch path returning
the statusCode-0 stub (crawler.ts:270-272, 276-278) are all fetchError; a
delivered body (possibly empty) is ok. -/
inductive FetchOutcome where
  | fetchError
  | ok (body : String)
deriving DecidableEq

/-- The record returned by ParallelCrawler.fetchPage: content, links, and the
optional title (absent on every failure path). -/
structure FetchedPage where
  content : String
  links : List String
  title : Option String := none
deriving DecidableEq

/-- ParallelCrawler.fetchPage (crawler.ts:257-314). HTML parsing by cheerio is
external and is modelled by the parameters extractTitle (the trimmed title
text) and extractLinks (every anchor href resolved to an absolute URL). All
failure paths, including exceptions, are caught by the source and yield the
empty record, so the embedding is a total function. -/
def fetchPage (shouldStop : Bool) (outcome : FetchOutcome)
    (extractTitle : String → String) (extractLinks : String → List String) : FetchedPage :=
  if shouldStop then { content := "", links := [] }
  else
    match outcome with
    | .fetchError => { content := "", links := [] }
    | .ok body =>
      if body = "" then { content := "", links := [] }
      else { content := body, links := extractLinks body, title := some (extractTitle body) }

/-- Model of one hash function of the bloom-filters package BloomFilter(10000, 5),
external to the repository: hash function i maps a string into the 10000-slot
bit array. The concrete mixing is a stand-in for the library hash; no verified
property depends on its distribution. -/
def bloomHash (i : Nat) (s : String) : Nat :=
  s.data.foldl (fun a c => (a * 131 + c.toNat) % 10000) (i + 1)

/-- BloomFilter#add: set the five hash positions of s (bits are kept as a list
of set indices). -/
def bloomAdd (bits : List Nat) (s : String) : List Nat :=
  ((List.range 5).map (fun i => bloomHash i s)) ++ bits

/-- BloomFilter#has: true iff all five hash positions of s are set. -/
def bloomHas (bits : List Nat) (s : String) : Bool :=
  (List.range 5).all (fun i => bits.contains (bloomHash i s))

/-- The mutable fields of a ParallelCrawler instance plus the run-scoped task
bookkeeping: pending holds the URLs of queued processUrl tasks (the PQueue
contents together with the seed before it is processed), inflight holds the
URLs that passed the claim block of processUrl and whose fetch has not yet
completed, and fetched is the ghost history of every URL ever claimed, in
claim order. -/
structure CrawlerState where
  visited : List String
  bloom : List Nat
  urlCount : Nat
  shouldStop : Bool
  results : List PageData
  pending : List String
  inflight : List String
  fetched : List String

/-- ParallelCrawler.isVisited (crawler.ts:319-321): exact set first, then the
bloom filter; no normalization of the argument. -/
def isVisited (s : CrawlerState) (url : String) : Bool :=
  s.visited.contains url || bloomHas s.bloom url

/-- ParallelCrawler.markVisited (crawler.ts:326-329): add the raw argument to
both layers. -/
def markVisited (s : CrawlerState) (url : String) : CrawlerState :=
  { s with visited := url :: s.visited, bloom := bloomAdd s.bloom url }

/-- ParallelCrawler.stopCrawling (crawler.ts:39-48): set the stop flag and
clear the task queue. -/
def stopCrawling (s : CrawlerState) : CrawlerState :=
  { s with shouldStop := true, pending := [] }

/-- The crawler state at the start of crawl(seedUrl): fresh instance fields
(crawler.ts:10-18) and the seed as the one task to run. -/
def initState (seedUrl : String) : CrawlerState :=
  { visited := []
    bloom := []
    urlCount := 0
    shouldStop := false
    results := []
    pending := [seedUrl]
    inflight := []
    fetched := [] }

/-- Effect of the synchronous claim block of processUrl on a task for raw
(crawler.ts:124-151), in the case where every guard passes: normalize, mark
visited, increment the dispatch counter, and hand the URL to the awaited
fetch. -/
def claimStep (s : CrawlerState) (raw : String) : CrawlerState :=
  let u := stripQF raw
  { markVisited s u with
      urlCount := s.urlCount + 1
      pending := s.pending.erase raw
      inflight := s.inflight ++ [u]
      fetched := s.fetched ++ [u] }

/-- Effect of an early return of processUrl (stop flag set, or URL already
visited; crawler.ts:126-141): the task is dropped with no state change. -/
def discardStep (s : CrawlerState) (raw : String) : CrawlerState :=
  { s with pending := s.pending.erase raw }

/-- Effect of the post-fetch block of processUrl (crawler.ts:160-181) once the
fetch for inflight URL u completes with the given content, links and title:
push a record if content is non-empty, then, unless the engine is stopping or
the budget is exhausted, enqueue every admitted not-yet-visited link. The
enqueue guard is loop-invariant in the source because nothing in the loop body
changes shouldStop or urlCount. -/
def completeStep (cfg : CrawlerConfig) (baseDomain : String) (s : CrawlerState)
    (u content : String) (links : List String) (title : Option String) : CrawlerState :=
  { s with
      inflight := s.inflight.erase u
      results := s.results ++ (if content = "" then [] else [⟨u, content, links, title⟩])
      pending := s.pending ++
        (if s.shouldStop = false ∧ s.urlCount < effectiveMaxUrls cfg then
          (filterLinks cfg links u baseDomain).filter (fun l => !(isVisited s l))
        else []) }

/-- Observable actions of the engine, labelling the step relation. -/
inductive CrawlAction where
  | claim (raw : String)
  | discard (raw : String)
  | claimAtMax (raw : String)
  | complete (url : String) (content : String) (links : List String) (title : Option String)
  | timerStop
deriving DecidableEq

/-- Small-step semantics of the crawl engine. Each constructor is one atomic
block of the single-threaded source: claim is the guarded prefix of processUrl
reaching markVisited (crawler.ts:124-151); discard is an early return of
processUrl; claimAtMax is the budget check firing stopCrawling
(crawler.ts:143-147); complete is the post-fetch block for an inflight URL,
with the fetch result supplied by the environment; timerStop is the maxRunTime
timer of crawler.ts:31-33 firing. -/
inductive Step (cfg : CrawlerConfig) (baseDomain : String) :
    CrawlerState → CrawlAction → CrawlerState → Prop where
  | claim (s : CrawlerState) (raw : String)
      (hmem : raw ∈ s.pending)
      (hstop : s.shouldStop = false)
      (hvis : isVisited s (stripQF raw) = false)
      (hcount : s.urlCount < effectiveMaxUrls cfg) :
      Step cfg baseDomain s (CrawlAction.claim raw) (claimStep s raw)
  | discard (s : CrawlerState) (raw : String)
      (hmem : raw ∈ s.pending)
      (hskip : s.shouldStop = true ∨ isVisited s (stripQF raw) = true) :
      Step cfg baseDomain s (CrawlAction.discard raw) (discardStep s raw)
  | claimAtMax (s : CrawlerState) (raw : String)
      (hmem : raw ∈ s.pending)
      (hstop : s.shouldStop = false)
      (hvis : isVisited s (stripQF raw) = false)
      (hcount : effectiveMaxUrls cfg ≤ s.urlCount) :
      Step cfg baseDomain s (CrawlAction.claimAtMax raw) (stopCrawling s)
  | complete (s : CrawlerState) (u content : String) (links : List String)
      (title : Option String)
      (hmem : u ∈ s.inflight) :
      Step cfg baseDomain s (CrawlAction.complete u content links title)
        (completeStep cfg baseDomain s u content links title)
  | timerStop (s : CrawlerState)
      (hstop : s.shouldStop = false) :
      Step cfg baseDomain s CrawlAction.timerStop (stopCrawling s)

/-- A run of the engine: a finite sequence of steps with its action trace. -/
inductive Run (cfg : CrawlerConfig) (baseDomain : String) :
    CrawlerState → List CrawlAction → CrawlerState → Prop where
  | nil (s : CrawlerState) : Run cfg baseDomain s [] s
  | cons {s t u : CrawlerState} {a : CrawlAction} {acts : List CrawlAction}
      (hstep : Step cfg baseDomain s a t) (hrun : Run cfg baseDomain t acts u) :
      Run cfg baseDomain s (a :: acts) u

/-- The synthetic failure record pushed by crawl when the run produced no
results (crawler.ts:92-99). -/
def failureRecord (seedUrl : String) : PageData :=
  { url := seedUrl
    content := "<h1>Failed to load content</h1><p>The crawler was unable to process this page.</p>"
    links := []
    title := some "Failed to Load Content" }

/-- The value returned by crawl (crawler.ts:91-101): the accumulated results,
or the synthetic seed failure record when none were accumulated. -/
def crawlResult (seedUrl : String) (results : List PageData) : List PageData :=
  if results.isEmpty then [failureRecord seedUrl] else results

/-- The URLs of the accumulated page records, in record order. -/
def resultUrls (s : CrawlerState) : List String :=
  s.results.map PageData.url

/-- The URL claimed by an action, when it claims one. -/
def claimedUrl : CrawlAction → Option String
  | .claim raw => some (stripQF raw)
  | _ => none

/-- The page content delivered by an action, empty for non-completions. -/
def actionContent : CrawlAction → String
  | .complete _ c _ _ => c
  | _ => ""

/-- A shared sample configuration used to instantiate theorems on concrete
inputs: sameDomain crawling with default budgets and no URL allow- or
deny-lists. -/
def cfgSample : CrawlerConfig :=
  { maxConcurrency := 5, sameDomain := true }

/-! Helper lemmas about URL normalization and the visited set. -/

theorem takeWhile_nested_fix {p q : Char → Bool} (l : List Char) :
    ((l.takeWhile p).takeWhile q).takeWhile p = (l.takeWhile p).takeWhile q := by
  apply List.takeWhile_eq_self_iff.mpr
  intro c hc
  exact List.mem_takeWhile_imp ((List.takeWhile_sublist _).subset hc)

theorem takeWhile_self_fix {q : Char → Bool} (l : List Char) :
    (l.takeWhile q).takeWhile q = l.takeWhile q := by
  apply List.takeWhile_eq_self_iff.mpr
  intro c hc
  exact List.mem_takeWhile_imp hc

/-- Normalization is idempotent: stripping query and fragment twice equals
stripping once. -/
theorem stripQF_idem (url : String) : stripQF (stripQF url) = stripQF url := by
  show String.mk ((((url.data.takeWhile (fun c => c != '?')).takeWhile
          (fun c => c != '#')).takeWhile (fun c => c != '?')).takeWhile (fun c => c != '#'))
      = String.mk ((url.data.takeWhile (fun c => c != '?')).takeWhile (fun c => c != '#'))
  rw [@takeWhile_nested_fix (fun c => c != '?') (fun c => c != '#') url.data,
    @takeWhile_self_fix (fun c => c != '#') (url.data.takeWhile (fun c => c != '?'))]

theorem bloom_contains_mono {l₁ l₂ : List Nat} {a : Nat}
    (h : l₂.contains a = true) : (l₁ ++ l₂).contains a = true := by
  simp only [List.contains, List.elem_eq_mem, decide_eq_true_eq] at h ⊢
  exact List.mem_append_right _ h

theorem bloomHas_mono (bits extra : List Nat) (s : String)
    (h : bloomHas bits s = true) : bloomHas (extra ++ bits) s = true := by
  simp only [bloomHas, List.all_eq_true] at h ⊢
  intro i hi
  exact bloom_contains_mono (h i hi)

/-- Whatever is visited stays visited after any later markVisited. -/
theorem isVisited_mono (s : CrawlerState) (u w : String)
    (h : isVisited s u = true) : isVisited (markVisited s w) u = true := by
  simp only [isVisited, markVisited, Bool.or_eq_true] at h ⊢
  rcases h with h | h
  · left
    simp only [List.contains, List.elem_eq_mem, decide_eq_true_eq] at h ⊢
    exact List.mem_cons_of_mem _ h
  · right
    exact bloomHas_mono _ _ _ h

/-- A URL just marked is visited. -/
theorem isVisited_markVisited_self (s : CrawlerState) (u : String) :
    isVisited (markVisited s u) u = true := by
  simp [isVisited, markVisited]

/-- A URL not visited is, in particular, absent from the exact layer. -/
theorem not_mem_visited_of_not_isVisited {s : CrawlerState} {u : String}
    (h : isVisited s u = false) : u ∉ s.visited := by
  intro hmem
  simp [isVisited, List.contains, List.elem_eq_mem, hmem] at h

/-- Run invariant of the engine: the URLs of accumulated records together with
the inflight URLs are pairwise distinct, all of them and all claimed URLs are
stored in the exact visited layer, everything the engine ever stores in the
visited set is in normalized (query- and fragment-stripped) form, and the
dispatch counter respects the budget. -/
structure EngineInv (cfg : CrawlerConfig) (s : CrawlerState) : Prop where
  nodupLive : (resultUrls s ++ s.inflight).Nodup
  liveVisited : ∀ u ∈ resultUrls s ++ s.inflight, u ∈ s.visited
  nodupFetched : s.fetched.Nodup
  fetchedVisited : ∀ u ∈ s.fetched, u ∈ s.visited
  visitedStripped : ∀ u ∈ s.visited, stripQF u = u
  countLe : s.urlCount ≤ effectiveMaxUrls cfg

theorem inv_init (cfg : CrawlerConfig) (seedUrl : String) : EngineInv cfg (initState seedUrl) := by
  constructor <;> simp [initState, resultUrls]

theorem claimStep_visited (s : CrawlerState) (raw : String) :
    (claimStep s raw).visited = stripQF raw :: s.visited := rfl

theorem claimStep_results (s : CrawlerState) (raw : String) :
    (claimStep s raw).results = s.results := rfl

theorem claimStep_inflight (s : CrawlerState) (raw : String) :
    (claimStep s raw).inflight = s.inflight ++ [stripQF raw] := rfl

theorem claimStep_fetched (s : CrawlerState) (raw : String) :
    (claimStep s raw).fetched = s.fetched ++ [stripQF raw] := rfl

theorem claimStep_urlCount (s : CrawlerState) (raw : String) :
    (claimStep s raw).urlCount = s.urlCount + 1 := rfl

theorem completeStep_results (cfg : CrawlerConfig) (bd : String) (s : CrawlerState)
    (u content : String) (links : List String) (title : Option String) :
    (completeStep cfg bd s u content links title).results
      = s.results ++ (if content = "" then [] else [⟨u, content, links, title⟩]) := rfl

theorem completeStep_inflight (cfg : CrawlerConfig) (bd : String) (s : CrawlerState)
    (u content : String) (links : List String) (title : Option String) :
    (completeStep cfg bd s u content links title).inflight = s.inflight.erase u := rfl

theorem completeStep_visited (cfg : CrawlerConfig) (bd : String) (s : CrawlerState)
    (u content : String) (links : List String) (title : Option String) :
    (completeStep cfg bd s u content links title).visited = s.visited := rfl

theorem completeStep_fetched (cfg : CrawlerConfig) (bd : String) (s : CrawlerState)
    (u content : String) (links : List String) (title : Option String) :
    (completeStep cfg bd s u content links title).fetched = s.fetched := rfl

theorem completeStep_urlCount (cfg : CrawlerConfig) (bd : String) (s : CrawlerState)
    (u content : String) (links : List String) (title : Option String) :
    (completeStep cfg bd s u content links title).urlCount = s.urlCount := rfl

theorem inv_claim {cfg : CrawlerConfig} {s : CrawlerState} (raw : String)
    (hvis : isVisited s (stripQF raw) = false)
    (hcount : s.urlCount < effectiveMaxUrls cfg)
    (hinv : EngineInv cfg s) : EngineInv cfg (claimStep s raw) := by
  have hnv : stripQF raw ∉ s.visited := not_mem_visited_of_not_isVisited hvis
  have hfresh : stripQF raw ∉ resultUrls s ++ s.inflight := fun hmem =>
    hnv (hinv.liveVisited _ hmem)
  have hfreshF : stripQF raw ∉ s.fetched := fun hmem => hnv (hinv.fetchedVisited _ hmem)
  have hperm : List.Perm (resultUrls s ++ (s.inflight ++ [stripQF raw]))
      (stripQF raw :: (resultUrls s ++ s.inflight)) := by
    rw [← List.append_assoc]
    exact List.perm_append_singleton _ _
  constructor
  · simp only [resultUrls, claimStep_results, claimStep_inflight]
    exact hperm.nodup_iff.mpr (List.nodup_cons.mpr ⟨hfresh, hinv.nodupLive⟩)
  · intro v hv
    simp only [resultUrls, claimStep_results, claimStep_inflight] at hv
    rw [claimStep_visited]
    rcases List.mem_cons.mp (hperm.mem_iff.mp hv) with hv2 | hv2
    · rw [hv2]
      exact List.mem_cons_self _ _
    · exact List.mem_cons_of_mem _ (hinv.liveVisited _ hv2)
  · rw [claimStep_fetched]
    have hpermF : List.Perm (s.fetched ++ [stripQF raw]) (stripQF raw :: s.fetched) :=
      List.perm_append_singleton _ _
    exact hpermF.nodup_iff.mpr (List.nodup_cons.mpr ⟨hfreshF, hinv.nodupFetched⟩)
  · intro v hv
    rw [claimStep_fetched] at hv
    rw [claimStep_visited]
    rcases List.mem_append.mp hv with hv | hv
    · exact List.mem_cons_of_mem _ (hinv.fetchedVisited _ hv)
    · rw [List.mem_singleton.mp hv]
      exact List.mem_cons_self _ _
  · intro v hv
    rw [claimStep_visited] at hv
    rcases List.mem_cons.mp hv with hv | hv
    · rw [hv]
      exact stripQF_idem raw
    · exact hinv.visitedStripped _ hv
  · rw [claimStep_urlCount]
    exact hcount

theorem inv_discard {cfg : CrawlerConfig} {s : CrawlerState} (raw : String)
    (hinv : EngineInv cfg s) : EngineInv cfg (discardStep s raw) := by
  cases hinv
  constructor <;> assumption

theorem inv_stop {cfg : CrawlerConfig} {s : CrawlerState}
    (hinv : EngineInv cfg s) : EngineInv cfg (stopCrawling s) := by
  cases hinv
  constructor <;> assumption

theorem inv_complete {cfg : CrawlerConfig} {bd : String} {s : CrawlerState}
    (u content : String) (links : List String) (title : Option String)
    (hmem : u ∈ s.inflight) (hinv : EngineInv cfg s) :
    EngineInv cfg (completeStep cfg bd s u content links title) := by
  by_cases hc : content = ""
  · constructor
    · simp only [resultUrls, completeStep_results, completeStep_inflight, if_pos hc,
        List.append_nil]
      exact hinv.nodupLive.sublist
        ((List.erase_sublist _ _).append_left (s.results.map PageData.url))
    · intro v hv
      simp only [resultUrls, completeStep_results, completeStep_inflight, if_pos hc,
        List.append_nil] at hv
      rw [completeStep_visited]
      rcases List.mem_append.mp hv with hv | hv
      · exact hinv.liveVisited _ (List.mem_append.mpr (Or.inl hv))
      · exact hinv.liveVisited _
          (List.mem_append.mpr (Or.inr (List.mem_of_mem_erase hv)))
    · rw [completeStep_fetched]
      exact hinv.nodupFetched
    · intro v hv
      rw [completeStep_fetched] at hv
      rw [completeStep_visited]
      exact hinv.fetchedVisited _ hv
    · intro v hv
      rw [completeStep_visited] at hv
      exact hinv.visitedStripped _ hv
    · rw [completeStep_urlCount]
      exact hinv.countLe
  · have hperm : List.Perm (resultUrls s ++ u :: s.inflight.erase u)
        (resultUrls s ++ s.inflight) :=
      ((List.perm_cons_erase hmem).append_left (resultUrls s)).symm
    constructor
    · simp only [resultUrls, completeStep_results, completeStep_inflight, if_neg hc,
        List.map_append, List.map_cons, List.map_nil]
      rw [List.append_assoc]
      have heq : ([u] : List String) ++ s.inflight.erase u = u :: s.inflight.erase u := rfl
      rw [heq]
      exact (hperm.nodup_iff).mpr hinv.nodupLive
    · intro v hv
      simp only [resultUrls, completeStep_results, completeStep_inflight, if_neg hc,
        List.map_append, List.map_cons, List.map_nil] at hv
      rw [completeStep_visited]
      rw [List.append_assoc] at hv
      have hv2 : v ∈ resultUrls s ++ (u :: s.inflight.erase u) := hv
      exact hinv.liveVisited _ (hperm.mem_iff.mp hv2)
    · rw [completeStep_fetched]
      exact hinv.nodupFetched
    · intro v hv
      rw [completeStep_fetched] at hv
      rw [completeStep_visited]
      exact hinv.fetchedVisited _ hv
    · intro v hv
      rw [completeStep_visited] at hv
      exact hinv.visitedStripped _ hv
    · rw [completeStep_urlCount]
      exact hinv.countLe

/-- Every engine step preserves the run invariant. -/
theorem inv_step {cfg : CrawlerConfig} {bd : String} {s : CrawlerState}
    {a : CrawlAction} {t : CrawlerState}
    (hstep : Step cfg bd s a t) (hinv : EngineInv cfg s) : EngineInv cfg t := by
  cases hstep with
  | claim raw hmem hstop hvis hcount => exact inv_claim raw hvis hcount hinv
  | discard raw hmem hskip => exact inv_discard raw hinv
  | claimAtMax raw hmem hstop hvis hcount => exact inv_stop hinv
  | complete u content links title hmem => exact inv_complete u content links title hmem hinv
  | timerStop hstop => exact inv_stop hinv

/-- The run invariant holds in every state reachable by a run. -/
theorem run_inv {cfg : CrawlerConfig} {bd : String} {s : CrawlerState}
    {acts : List CrawlAction} {t : CrawlerState}
    (hrun : Run cfg bd s acts t) (hinv : EngineInv cfg s) : EngineInv cfg t := by
  induction hrun with
  | nil s => exact hinv
  | cons hstep hrest ih => exact ih (inv_step hstep hinv)

/-- One step appends exactly its claimed URL (if any) to the ghost claim
history. -/
theorem step_fetched {cfg : CrawlerConfig} {bd : String} {s : CrawlerState}
    {a : CrawlAction} {t : CrawlerState} (hstep : Step cfg bd s a t) :
    t.fetched = s.fetched ++ (claimedUrl a).toList := by
  cases hstep with
  | claim raw hmem hstop hvis hcount => rfl
  | discard raw hmem hskip => simp [discardStep, claimedUrl]
  | claimAtMax raw hmem hstop hvis hcount => simp [stopCrawling, claimedUrl]
  | complete u content links title hmem => simp [completeStep, claimedUrl]
  | timerStop hstop => simp [stopCrawling, claimedUrl]

/-- Along a run, the ghost claim history grows by exactly the claimed URLs of
the trace, in order. -/
theorem run_fetched {cfg : CrawlerConfig} {bd : String} {s : CrawlerState}
    {acts : List CrawlAction} {t : CrawlerState} (hrun : Run cfg bd s acts t) :
    t.fetched = s.fetched ++ acts.filterMap claimedUrl := by
  induction hrun with
  | nil s => simp
  | cons hstep hrest ih =>
    rw [ih, step_fetched hstep]
    cases ‹CrawlAction› using CrawlAction.casesOn <;> simp [claimedUrl, List.filterMap_cons]

/-- Claim C1: for every crawl run, the returned PageData collection contains
no two records with the same normalized (query- and fragment-stripped) URL,
and every URL is claimed for fetching at most once in the whole trace, no
matter how many parent pages link to it. -/
theorem crawl_no_duplicate_records
    (cfg : CrawlerConfig) (baseDomain seedUrl : String) (acts : List CrawlAction)
    (final : CrawlerState)
    (hrun : Run cfg baseDomain (initState seedUrl) acts final) :
    ((crawlResult seedUrl final.results).map (fun r => stripQF r.url)).Nodup ∧
    (acts.filterMap claimedUrl).Nodup := by
  have hinv := run_inv hrun (inv_init cfg seedUrl)
  constructor
  · unfold crawlResult
    by_cases he : final.results.isEmpty
    · simp [he]
    · rw [if_neg (by simp [he])]
      have hnd : (final.results.map PageData.url).Nodup :=
        hinv.nodupLive.sublist (List.sublist_append_left _ _)
      have hmapeq : final.results.map (fun r => stripQF r.url)
          = final.results.map PageData.url := by
        apply List.map_congr_left
        intro r hr
        exact hinv.visitedStripped _ (hinv.liveVisited _
          (List.mem_append.mpr (Or.inl (List.mem_map_of_mem PageData.url hr))))
      rw [hmapeq]
      exact hnd
  · have hfet := run_fetched hrun
    simp only [initState, List.nil_append] at hfet
    rw [← hfet]
    exact hinv.nodupFetched

/-- Witness for C1: the hypotheses hold for the empty run from the seed. -/
theorem crawl_no_duplicate_records_witness :
    ((crawlResult "http://example.com/" (initState "http://example.com/").results).map
        (fun r => stripQF r.url)).Nodup ∧
    (([] : List CrawlAction).filterMap claimedUrl).Nodup :=
  crawl_no_duplicate_records cfgSample "example.com" "http://example.com/" []
    (initState "http://example.com/") (Run.nil _)

/-- A sample configuration with an explicit URL budget of 5. -/
def cfgBudget : CrawlerConfig :=
  { maxConcurrency := 2, sameDomain := true, maxUrlsPerDomain := some 5 }

/-- Claim C2: with policy maximum maxUrlsPerDomain = N, the dispatched-URL
counter urlCount never exceeds N in any reachable state of any run, for every
concurrency level and queue depth: the claim block of processUrl refuses to
mark and dispatch once urlCount is at least N. -/
theorem urlCount_never_exceeds_max
    (cfg : CrawlerConfig) (N : Nat) (baseDomain seedUrl : String)
    (acts : List CrawlAction) (final : CrawlerState)
    (hN : cfg.maxUrlsPerDomain = some N)
    (hrun : Run cfg baseDomain (initState seedUrl) acts final) :
    final.urlCount ≤ N := by
  have hinv := run_inv hrun (inv_init cfg seedUrl)
  have hle := hinv.countLe
  rwa [effectiveMaxUrls, hN, Option.getD_some] at hle

/-- Witness for C2: a one-step run claiming the seed under budget 5 ends with
counter 1, within the budget. -/
theorem urlCount_never_exceeds_max_witness :
    cfgBudget.maxUrlsPerDomain = some 5 ∧
    (claimStep (initState "http://example.com/") "http://example.com/").urlCount ≤ 5 :=
  ⟨rfl,
    urlCount_never_exceeds_max cfgBudget 5 "example.com" "http://example.com/"
      [CrawlAction.claim "http://example.com/"]
      (claimStep (initState "http://example.com/") "http://example.com/")
      rfl
      (Run.cons
        (Step.claim (initState "http://example.com/") "http://example.com/"
          (by decide) rfl (by decide) (by decide))
        (Run.nil _))⟩

/-- One step that delivers no page content leaves the result collection
unchanged. -/
theorem step_results_of_empty_content {cfg : CrawlerConfig} {bd : String}
    {s : CrawlerState} {a : CrawlAction} {t : CrawlerState}
    (hstep : Step cfg bd s a t) (hc : actionContent a = "") :
    t.results = s.results := by
  cases hstep with
  | claim raw hmem hstop hvis hcount => rfl
  | discard raw hmem hskip => rfl
  | claimAtMax raw hmem hstop hvis hcount => rfl
  | complete u content links title hmem =>
    simp only [actionContent] at hc
    simp [completeStep, hc]
  | timerStop hstop => rfl

/-- A run none of whose steps delivers page content accumulates no records. -/
theorem run_results_of_empty_content {cfg : CrawlerConfig} {bd : String}
    {s : CrawlerState} {acts : List CrawlAction} {t : CrawlerState}
    (hrun : Run cfg bd s acts t) (hc : ∀ a ∈ acts, actionContent a = "") :
    t.results = s.results := by
  induction hrun with
  | nil s => rfl
  | cons hstep hrest ih =>
    rw [ih (fun a ha => hc a (List.mem_cons_of_mem _ ha)),
      step_results_of_empty_content hstep (hc _ (List.mem_cons_self _ _))]

/-- Claim C3: when the seed fetch fails and no page is ever successfully
fetched (every completion in the trace delivers empty content), crawl returns
exactly one synthetic failure record for the seed URL, and in particular a
non-empty collection. -/
theorem crawl_seed_failure_synthetic
    (cfg : CrawlerConfig) (baseDomain seedUrl : String) (acts : List CrawlAction)
    (final : CrawlerState)
    (hrun : Run cfg baseDomain (initState seedUrl) acts final)
    (hfail : ∀ a ∈ acts, actionContent a = "") :
    crawlResult seedUrl final.results = [failureRecord seedUrl] ∧
    crawlResult seedUrl final.results ≠ [] := by
  have hres : final.results = [] := run_results_of_empty_content hrun hfail
  rw [crawlResult, hres]
  simp

/-- Witness for C3: the hypotheses hold for the empty run from the seed. -/
theorem crawl_seed_failure_synthetic_witness :
    crawlResult "http://example.com/" (initState "http://example.com/").results
      = [failureRecord "http://example.com/"] ∧
    crawlResult "http://example.com/" (initState "http://example.com/").results ≠ [] :=
  crawl_seed_failure_synthetic cfgSample "example.com" "http://example.com/" []
    (initState "http://example.com/") (Run.nil _) (by simp)

/-- Claim C4: once markVisited is called on a URL, isVisited on that URL
returns true after any number of further markVisited calls: the visited set
is monotone, marking is idempotent, and the exact layer rules out false
negatives. -/
theorem markVisited_monotone
    (s : CrawlerState) (u : String) (later : List String) :
    isVisited (later.foldl markVisited (markVisited s u)) u = true := by
  have key : ∀ (l : List String) (t : CrawlerState), isVisited t u = true →
      isVisited (l.foldl markVisited t) u = true := by
    intro l
    induction l with
    | nil => intro t h; exact h
    | cons w l ih => intro t h; exact ih _ (isVisited_mono _ _ _ h)
  exact key later _ (isVisited_markVisited_self s u)

/-- Claim C5 counterexample: isVisited and markVisited perform no
normalization themselves. After marking the stripped form of a URL, the same
URL carrying a query string is still reported unvisited, so the two
operations do not behave identically on a URL and on its query- and
fragment-stripped form. -/
theorem isVisited_not_normalizing :
    isVisited (markVisited (initState "http://a.com/p") "http://a.com/p")
        "http://a.com/p" = true ∧
    isVisited (markVisited (initState "http://a.com/p") "http://a.com/p")
        "http://a.com/p?x=1" = false ∧
    stripQF "http://a.com/p?x=1" = "http://a.com/p" :=
  ⟨by decide, by decide, by decide⟩

/-- Claim C5 amended: the Visited-Set operations isVisited and markVisited
act on their raw argument without normalization (the pre-enqueue visited
checks receive the unstripped link text); normalization is instead performed
by processUrl at task entry, so every URL an engine step newly stores in the
visited set is in query- and fragment-stripped form. -/
theorem visited_entries_are_stripped
    (cfg : CrawlerConfig) (bd : String) (s : CrawlerState) (a : CrawlAction)
    (t : CrawlerState) (hstep : Step cfg bd s a t) :
    ∀ v, v ∈ t.visited → v ∈ s.visited ∨ stripQF v = v := by
  cases hstep with
  | claim raw hmem hstop hvis hcount =>
    intro v hv
    rw [claimStep_visited] at hv
    rcases List.mem_cons.mp hv with hv | hv
    · right
      rw [hv]
      exact stripQF_idem raw
    · left
      exact hv
  | discard raw hmem hskip => exact fun v hv => Or.inl hv
  | claimAtMax raw hmem hstop hvis hcount => exact fun v hv => Or.inl hv
  | complete u content links title hmem => exact fun v hv => Or.inl hv
  | timerStop hstop => exact fun v hv => Or.inl hv

/-- Witness for the amended C5 at a concrete step: claiming a seed that
carries a query and a fragment stores exactly its stripped form. -/
theorem visited_entries_are_stripped_witness :
    "http://example.com/a" ∈ (initState "http://example.com/a?q=1#top").visited ∨
    stripQF "http://example.com/a" = "http://example.com/a" :=
  visited_entries_are_stripped cfgSample "example.com"
    (initState "http://example.com/a?q=1#top")
    (CrawlAction.claim "http://example.com/a?q=1#top")
    (claimStep (initState "http://example.com/a?q=1#top") "http://example.com/a?q=1#top")
    (Step.claim _ _ (by decide) rfl (by decide) (by decide))
    "http://example.com/a" (by decide)

/-- Claim C6: when the policy has sameDomain set and the base domain is the
seed host, the Link Filter admits no link whose host differs from it: every
admitted link parses to a URL whose hostname equals the base domain exactly. -/
theorem sameDomain_filter_host_eq
    (cfg : CrawlerConfig) (links : List String) (currentUrl baseDomain link : String)
    (u : URLModel)
    (hsd : cfg.sameDomain = true)
    (hmem : link ∈ filterLinks cfg links currentUrl baseDomain)
    (hp : parseURL link = some u) :
    u.hostname = baseDomain := by
  have hadm : linkAdmit cfg baseDomain link = true :=
    (List.mem_filter.mp hmem).2
  simp only [linkAdmit, hp] at hadm
  simp only [linkAdmitURL] at hadm
  split_ifs at hadm with h1 h2 h3 h4 h5 h6
  by_contra hne
  exact h2 ⟨hsd, by simpa [stripHash] using hne⟩

/-- Witness for C6: a same-host link is admitted and its parsed hostname is
the base domain. -/
theorem sameDomain_filter_host_eq_witness :
    cfgSample.sameDomain = true ∧
    ("http://example.com/docs" ∈
      filterLinks cfgSample ["http://example.com/docs"] "http://example.com/" "example.com") ∧
    parseURL "http://example.com/docs"
      = some { protocol := "http:", hostname := "example.com", port := "",
               pathname := "/docs", search := "", hash := "" } ∧
    ("example.com" : String) = "example.com" :=
  ⟨rfl, by decide, by decide,
    sameDomain_filter_host_eq cfgSample ["http://example.com/docs"] "http://example.com/"
      "example.com" "http://example.com/docs"
      { protocol := "http:", hostname := "example.com", port := "",
        pathname := "/docs", search := "", hash := "" }
      rfl (by decide) (by decide)⟩

/-- Claim C7 counterexample: a link with scheme httpx — neither http nor
https — passes every filter rule and is admitted, because the source only
checks that the protocol starts with the string http. -/
theorem filter_admits_foreign_http_scheme :
    filterLinks cfgSample ["httpx://example.com/a"] "http://example.com/" "example.com"
      = ["httpx://example.com/a"] ∧
    parseURL "httpx://example.com/a"
      = some { protocol := "httpx:", hostname := "example.com", port := "",
               pathname := "/a", search := "", hash := "" } ∧
    ("httpx:" : String) ≠ "http:" ∧ ("httpx:" : String) ≠ "https:" :=
  ⟨by decide, by decide, by decide, by decide⟩

/-- Claim C7 amended: every link admitted by the Link Filter has a scheme
that starts with http — http and https, but also any other scheme with that
prefix, such as httpx; links whose scheme lacks the http prefix are
rejected. -/
theorem filter_admitted_scheme_starts_http
    (cfg : CrawlerConfig) (links : List String) (currentUrl baseDomain link : String)
    (u : URLModel)
    (hmem : link ∈ filterLinks cfg links currentUrl baseDomain)
    (hp : parseURL link = some u) :
    strStarts u.protocol "http" = true := by
  have hadm : linkAdmit cfg baseDomain link = true :=
    (List.mem_filter.mp hmem).2
  simp only [linkAdmit, hp] at hadm
  simp only [linkAdmitURL] at hadm
  split_ifs at hadm with h1 h2 h3 h4 h5 h6
  cases hb : strStarts u.protocol "http" with
  | true => rfl
  | false => exact absurd hb h1

/-- Witness for the amended C7: an http link is admitted and its protocol
starts with http. -/
theorem filter_admitted_scheme_starts_http_witness :
    ("http://example.com/start" ∈
      filterLinks cfgSample ["http://example.com/start"] "http://example.com/" "example.com") ∧
    parseURL "http://example.com/start"
      = some { protocol := "http:", hostname := "example.com", port := "",
               pathname := "/start", search := "", hash := "" } ∧
    strStarts "http:" "http" = true :=
  ⟨by decide, by decide,
    filter_admitted_scheme_starts_http cfgSample ["http://example.com/start"]
      "http://example.com/" "example.com" "http://example.com/start"
      { protocol := "http:", hostname := "example.com", port := "",
        pathname := "/start", search := "", hash := "" }
      (by decide) (by decide)⟩

/-- Claim C8 counterexample: the source tests url.search, which includes the
leading question mark, so a link whose query string is exactly 20 characters
(search length 21) is rejected, while the same link with the query removed,
or with a 19 character query, is admitted: the rejection is solely for the
query and fires at 20 characters already. -/
theorem filter_rejects_20_char_query :
    filterLinks cfgSample ["http://example.com/p?aaaaaaaaaaaaaaaaaaaa"]
      "http://example.com/" "example.com" = [] ∧
    filterLinks cfgSample ["http://example.com/p"]
      "http://example.com/" "example.com" = ["http://example.com/p"] ∧
    filterLinks cfgSample ["http://example.com/p?aaaaaaaaaaaaaaaaaaa"]
      "http://example.com/" "example.com" = ["http://example.com/p?aaaaaaaaaaaaaaaaaaa"] ∧
    ("aaaaaaaaaaaaaaaaaaaa" : String).length = 20 :=
  ⟨by decide, by decide, by decide, by decide⟩

/-- Claim C8 amended: the Link Filter rejects every link whose query string
is 20 or more characters long — the source compares the search component,
the question mark plus the query, against 20 — and does not reject a link
solely for its query string when the query is 19 characters or shorter:
every admitted link has a search component of length at most 20. -/
theorem filter_admitted_search_le_20
    (cfg : CrawlerConfig) (links : List String) (currentUrl baseDomain link : String)
    (u : URLModel)
    (hmem : link ∈ filterLinks cfg links currentUrl baseDomain)
    (hp : parseURL link = some u) :
    u.search.length ≤ 20 := by
  have hadm : linkAdmit cfg baseDomain link = true :=
    (List.mem_filter.mp hmem).2
  simp only [linkAdmit, hp] at hadm
  simp only [linkAdmitURL] at hadm
  split_ifs at hadm with h1 h2 h3 h4 h5 h6
  by_cases hq : u.search = ""
  · simp [hq]
  · by_contra hgt
    exact h4 ⟨by simpa [stripHash] using hq, by simpa [stripHash] using Nat.lt_of_not_le hgt⟩

/-- Witness for the amended C8: a link with a 19 character query is admitted
and its search component has length 20. -/
theorem filter_admitted_search_le_20_witness :
    ("http://example.com/p?aaaaaaaaaaaaaaaaaaa" ∈
      filterLinks cfgSample ["http://example.com/p?aaaaaaaaaaaaaaaaaaa"]
        "http://example.com/" "example.com") ∧
    parseURL "http://example.com/p?aaaaaaaaaaaaaaaaaaa"
      = some { protocol := "http:", hostname := "example.com", port := "",
               pathname := "/p", search := "?aaaaaaaaaaaaaaaaaaa", hash := "" } ∧
    ("?aaaaaaaaaaaaaaaaaaa" : String).length ≤ 20 :=
  ⟨by decide, by decide,
    filter_admitted_search_le_20 cfgSample ["http://example.com/p?aaaaaaaaaaaaaaaaaaa"]
      "http://example.com/" "example.com" "http://example.com/p?aaaaaaaaaaaaaaaaaaa"
      { protocol := "http:", hostname := "example.com", port := "",
        pathname := "/p", search := "?aaaaaaaaaaaaaaaaaaa", hash := "" }
      (by decide) (by decide)⟩

/-- Claim C9 counterexample: the source never checks the content type of the
response (crawler.ts:257-314 has no such test), so a non-text response whose
body decodes to a non-empty string — here the decoded bytes of a PNG header,
as response.text() would deliver them — is NOT turned into an empty result:
fetchPage returns the decoded body as content (with links and title
extracted from it), and the engine then pushes a record for it, refuting the
claim that a non-text response yields empty content and no record. -/
theorem fetchPage_nontext_body_returned :
    fetchPage false (FetchOutcome.ok "\x89PNG\x0d\x0a\x1a\x0a") (fun _ => "") (fun _ => [])
      = { content := "\x89PNG\x0d\x0a\x1a\x0a", links := [], title := some "" } ∧
    ("\x89PNG\x0d\x0a\x1a\x0a" : String) ≠ "" ∧
    (completeStep cfgSample "example.com"
        { initState "http://example.com/" with inflight := ["http://example.com/img"] }
        "http://example.com/img" "\x89PNG\x0d\x0a\x1a\x0a" [] (some "")).results
      = [{ url := "http://example.com/img", content := "\x89PNG\x0d\x0a\x1a\x0a",
           links := [], title := some "" }] :=
  ⟨rfl, by decide, by decide⟩

/-- Claim C9 amended: fetchPage is a total function — the source catches
every failure inside its own try blocks and never propagates an exception —
and on a network error, an aborted or timed-out request, or an empty
response body it returns the record with empty content, an empty links list
and no title, which the engine treats as zero links discovered and no record
produced; a non-text response with a non-empty decoded body is, however,
returned as ordinary content. -/
theorem fetchPage_failure_empty
    (stopFlag : Bool) (outcome : FetchOutcome)
    (extractTitle : String → String) (extractLinks : String → List String)
    (h : outcome = FetchOutcome.fetchError ∨ outcome = FetchOutcome.ok "") :
    fetchPage stopFlag outcome extractTitle extractLinks
      = { content := "", links := [], title := none } := by
  rcases h with h | h <;> subst h <;> cases stopFlag <;> simp [fetchPage]

/-- Witness for the amended C9 at a concrete failing fetch. -/
theorem fetchPage_failure_empty_witness :
    (FetchOutcome.fetchError = FetchOutcome.fetchError ∨
      FetchOutcome.fetchError = FetchOutcome.ok "") ∧
    fetchPage false FetchOutcome.fetchError (fun _ => "") (fun _ => [])
      = { content := "", links := [], title := none } :=
  ⟨Or.inl rfl,
    fetchPage_failure_empty false FetchOutcome.fetchError (fun _ => "") (fun _ => [])
      (Or.inl rfl)⟩

/-- Claim C10: filterLinks returns a subsequence of its input list: each
admitted link is returned character-for-character unchanged — the hash
stripping inside the callback is local to the callback and never alters the
returned elements — and the relative order of admitted links is their order
of discovery. -/
theorem filterLinks_sublist
    (cfg : CrawlerConfig) (links : List String) (currentUrl baseDomain : String) :
    (filterLinks cfg links currentUrl baseDomain).Sublist links :=
  List.filter_sublist links
